import Mathlib

/-!
# Verification of the greenlight-cli concurrent I/O core

A shallow embedding, in Lean 4, of the parts of the `greenlight-cli`
repository that the specification's claims are about:

* the WebSocket client's bounded text retry queue (`enqueueText`,
  `drainTextQueue` in `websocket.go`),
* the reconnect backoff schedule (`backoff`, `Run` in `websocket.go`),
* the inbound-frame keystroke translation (`connectAndRead` in
  `websocket.go`),
* the bridge tailer (`tailBridge` in `bridge.go`) and the transcript
  streamer's bridge mode (`streamToBridge` in `stream.go`),
* the hook dispatcher (`runHook`, `handleSessionStart`,
  `handlePermissionRequest`, `handleNotification` and the decision
  emitters in the hook source file).

Go byte strings are modelled as `List Char` (for line-oriented text) or
`List Nat` (for raw frame bytes); machine integers as `Nat`/`Int` with
explicit bounds where overflow matters; `float64` jitter arithmetic as
exact rationals with an explicit truncation toward zero for the
`time.Duration` conversion; and every fallible external interaction
(HTTP, JSON decoding, enrollment, file writes) as an explicit oracle
argument, so that each source function becomes a total computable Lean
function of its inputs and oracles.
-/

namespace Greenlight

/-! ## WebSocket client: text retry queue (`websocket.go`)

`textQueue` is a Go slice of byte slices; payloads are opaque, so the
queue is modelled generically over the payload type `α`. -/

/-- `const textQueueSize = 1024` in `websocket.go`. -/
def textQueueSize : Nat := 1024

/-- `enqueueText` (`websocket.go:160-173`): append a message to the retry
queue; if the queue is already at capacity, drop the oldest entry first
(`textQueue = textQueue[1:]`). -/
def enqueueText {α : Type} (q : List α) (m : α) : List α :=
  (if textQueueSize ≤ q.length then q.drop 1 else q) ++ [m]

/-- The queue contents after enqueueing the messages `msgs` in order while
disconnected (every `SendText` call with `conn == nil` calls
`enqueueText`). -/
def enqueueAll {α : Type} (q : List α) (msgs : List α) : List α :=
  msgs.foldl enqueueText q

/-- `drainTextQueue` (`websocket.go:177-206`), send phase: walk the queue in
order, writing each message; `ok i` tells whether the `i`-th write on this
connection succeeds.  Returns the successfully sent messages and, if a
write failed, `some unsent` — the suffix `queue[i:]` that the code
re-queues. -/
def drainSendsFrom {α : Type} (ok : Nat → Bool) : Nat → List α → List α × Option (List α)
  | _, [] => ([], none)
  | i, m :: rest =>
    if ok i then
      let r := drainSendsFrom ok (i + 1) rest
      (m :: r.1, r.2)
    else
      ([], some (m :: rest))

/-- The messages actually written by `drainTextQueue` for the queue
`queue`, given per-write outcomes `ok`. -/
def drainSends {α : Type} (ok : Nat → Bool) (queue : List α) : List α :=
  (drainSendsFrom ok 0 queue).1

/-- `drainTextQueue` (`websocket.go:194-202`), failure path: the unsent
suffix is prepended to whatever arrived in `textQueue` while draining, and
the result is truncated to the capacity (`textQueue = textQueue[:textQueueSize]`)
when it exceeds it. -/
def requeueAfterFailedDrain {α : Type} (unsent arrived : List α) : List α :=
  let q := unsent ++ arrived
  if textQueueSize < q.length then q.take textQueueSize else q

/-- `SendText` (`websocket.go:135-156`): on mode `R` return immediately;
otherwise if disconnected, or if the write fails, enqueue for retry.
Returns the new queue and whether a frame was written to the wire. -/
inductive WSMode where
  | RW
  | R
  | W
  deriving DecidableEq, Repr

def sendText {α : Type} (mode : WSMode) (connected : Bool) (writeOK : Bool)
    (q : List α) (m : α) : List α × Bool :=
  if mode = WSMode.R then (q, false)
  else if ¬connected then (enqueueText q m, false)
  else if writeOK then (q, true)
  else (enqueueText q m, false)

/-! ### Queue lemmas -/

/-- The last `n` elements of a list, in order. -/
def lastN {α : Type} (n : Nat) (l : List α) : List α :=
  l.drop (l.length - n)

theorem lastN_of_le {α : Type} {n : Nat} {l : List α} (h : l.length ≤ n) :
    lastN n l = l := by
  simp [lastN, Nat.sub_eq_zero_of_le h]

theorem lastN_cons_of_le {α : Type} {n : Nat} (a : α) {l : List α}
    (h : n ≤ l.length) : lastN n (a :: l) = lastN n l := by
  unfold lastN
  have h1 : (a :: l).length - n = (l.length - n) + 1 := by
    simp only [List.length_cons]
    omega
  rw [h1]
  rfl

theorem enqueueText_length_le {α : Type} {q : List α} (m : α)
    (h : q.length ≤ textQueueSize) :
    (enqueueText q m).length ≤ textQueueSize := by
  unfold enqueueText
  split <;>
    simp only [List.length_append, List.length_drop, List.length_singleton] <;>
    (simp only [textQueueSize] at *; omega)

theorem enqueueAll_eq_lastN {α : Type} (msgs : List α) :
    ∀ q : List α, q.length ≤ textQueueSize →
      enqueueAll q msgs = lastN textQueueSize (q ++ msgs) := by
  induction msgs with
  | nil =>
    intro q hq
    simp [enqueueAll, lastN_of_le (by simpa using hq)]
  | cons m rest ih =>
    intro q hq
    have hstep : enqueueAll q (m :: rest) = enqueueAll (enqueueText q m) rest := rfl
    rw [hstep, ih _ (enqueueText_length_le m hq)]
    unfold enqueueText
    by_cases hfull : textQueueSize ≤ q.length
    · have hq' : q.length = textQueueSize := le_antisymm hq hfull
      simp only [hfull, if_true]
      cases q with
      | nil => simp [textQueueSize] at hq'
      | cons a q' =>
        have : (a :: q') ++ m :: rest = a :: (q' ++ m :: rest) := by simp
        rw [this, lastN_cons_of_le]
        · congr 1
          simp
        · simp only [List.length_append, List.length_cons] at *
          omega
    · simp only [hfull, if_false]
      congr 1
      simp

theorem drainSendsFrom_all_ok {α : Type} (l : List α) :
    ∀ i, drainSendsFrom (fun _ => true) i l = (l, none) := by
  induction l with
  | nil => intro i; rfl
  | cons m rest ih =>
    intro i
    simp [drainSendsFrom, ih (i + 1)]

/-! ## WebSocket client: reconnect backoff (`websocket.go`) -/

/-- The saturation `if attempt > 30 { attempt = 30 }` applied by `backoff`
(`websocket.go:305-307`). -/
def backoffSatAttempt (attempt : Nat) : Nat :=
  if 30 < attempt then 30 else attempt

/-- The capped base delay of `backoff` (`websocket.go:304-311`), in
nanoseconds: `base := 1s << attempt`, capped at `maxDelay = 30s`. -/
def backoffBaseNs (attempt : Nat) : Nat :=
  let base := 1000000000 * 2 ^ backoffSatAttempt attempt
  if 30000000000 < base then 30000000000 else base

/-- Conversion of a `float64` to a Go `time.Duration` (`int64`) truncates
toward zero; the jitter arithmetic itself is modelled exactly over `ℚ`. -/
def truncToInt (q : ℚ) : ℤ :=
  if 0 ≤ q then ⌊q⌋ else ⌈q⌉

/-- `backoff` (`websocket.go:301-315`): base delay plus jitter
`time.Duration(float64(base) * (0.5*rand.Float64() - 0.25))`, where
`r = rand.Float64()` satisfies `0 ≤ r < 1`. Result in nanoseconds. -/
def backoffDelayNs (attempt : Nat) (r : ℚ) : ℤ :=
  (backoffBaseNs attempt : ℤ)
    + truncToInt ((backoffBaseNs attempt : ℚ) * (1/2 * r - 1/4))

/-- `Run` (`websocket.go:85-89`): the attempt counter used for the delay
after a disconnect is reset to `0` exactly when the connection lasted
strictly more than 60 seconds (`time.Since(connStart) > 60*time.Second`).
`connNs` is the connection duration in nanoseconds. -/
def runAttemptAfterDisconnect (attempt : Nat) (connNs : Nat) : Nat :=
  if 60000000000 < connNs then 0 else attempt

theorem backoffBaseNs_eq_min (attempt : Nat) :
    backoffBaseNs attempt = min (1000000000 * 2 ^ attempt) 30000000000 := by
  unfold backoffBaseNs backoffSatAttempt
  by_cases h : 30 < attempt
  · simp only [h, if_true]
    have h30 : (30000000000 : Nat) < 1000000000 * 2 ^ 30 := by norm_num
    have hmono : (2:Nat) ^ 30 ≤ 2 ^ attempt :=
      Nat.pow_le_pow_right (by norm_num) (le_of_lt h)
    have : (30000000000 : Nat) < 1000000000 * 2 ^ attempt :=
      lt_of_lt_of_le h30 (by exact Nat.mul_le_mul_left _ hmono)
    simp only [h30, if_true]
    omega
  · simp only [h, if_false]
    rcases le_or_lt (1000000000 * 2 ^ attempt) 30000000000 with hle | hlt
    · simp only [Nat.not_lt.mpr hle, if_false]
      omega
    · simp only [hlt, if_true]
      omega

theorem truncToInt_bounds (q : ℚ) :
    |(truncToInt q : ℚ)| ≤ |q| := by
  unfold truncToInt
  by_cases h : 0 ≤ q
  · simp only [h, if_true]
    have hfl : ((⌊q⌋ : ℤ) : ℚ) ≤ q := Int.floor_le q
    have h0 : (0:ℚ) ≤ (⌊q⌋ : ℚ) := by
      exact_mod_cast Int.floor_nonneg.mpr h
    rw [abs_of_nonneg h0, abs_of_nonneg h]
    exact hfl
  · push_neg at h
    simp only [not_le.mpr h, if_false]
    have hce : q ≤ ((⌈q⌉ : ℤ) : ℚ) := Int.le_ceil q
    have hcl : ((⌈q⌉ : ℤ) : ℚ) ≤ 0 := by
      have : (⌈q⌉ : ℤ) ≤ 0 := Int.ceil_le.mpr (by exact_mod_cast le_of_lt h)
      exact_mod_cast this
    rw [abs_of_nonpos hcl, abs_of_nonpos (le_of_lt h)]
    linarith

theorem backoffDelayNs_bounds (attempt : Nat) (r : ℚ) (h0 : 0 ≤ r) (h1 : r < 1) :
    (3/4 : ℚ) * (backoffBaseNs attempt : ℚ) ≤ (backoffDelayNs attempt r : ℚ) ∧
      (backoffDelayNs attempt r : ℚ) ≤ 5/4 * (backoffBaseNs attempt : ℚ) := by
  set B : ℚ := (backoffBaseNs attempt : ℚ) with hB
  have hBnn : 0 ≤ B := by positivity
  set q : ℚ := B * (1/2 * r - 1/4) with hq
  have habs : |q| ≤ B / 4 := by
    have h2 : |1/2 * r - 1/4| ≤ 1/4 := by
      rw [abs_le]
      constructor <;> linarith
    calc |q| = |B| * |1/2 * r - 1/4| := by rw [hq, abs_mul]
    _ ≤ |B| * (1/4) := by
        apply mul_le_mul_of_nonneg_left h2 (abs_nonneg B)
    _ = B / 4 := by rw [abs_of_nonneg hBnn]; ring
  have htr : |(truncToInt q : ℚ)| ≤ B / 4 := le_trans (truncToInt_bounds q) habs
  rw [abs_le] at htr
  have hdelay : (backoffDelayNs attempt r : ℚ) = B + (truncToInt q : ℚ) := by
    simp only [backoffDelayNs, hq, hB]
    push_cast
    ring
  constructor
  · rw [hdelay]; linarith [htr.1]
  · rw [hdelay]; linarith [htr.2]

/-- The shift operand of `backoff` never exceeds 30, and the resulting
`int64` nanosecond value `1s << attempt` stays below `2^63`: the
saturation prevents overflow. -/
theorem backoff_shift_no_overflow (attempt : Nat) :
    backoffSatAttempt attempt ≤ 30 ∧
      1000000000 * 2 ^ backoffSatAttempt attempt < 2 ^ 63 := by
  unfold backoffSatAttempt
  by_cases h : 30 < attempt
  · simp only [h, if_true]
    norm_num
  · simp only [h, if_false]
    constructor
    · omega
    · calc 1000000000 * 2 ^ attempt ≤ 1000000000 * 2 ^ 30 := by
            exact Nat.mul_le_mul_left _ (Nat.pow_le_pow_right (by norm_num) (by omega))
      _ < 2 ^ 63 := by norm_num

/-! ## WebSocket client: inbound frame handling (`connectAndRead`,
`websocket.go:273-297`)

Frame bytes are modelled as `List Nat` (`'\n' = 10`, `'\r' = 13`).  The
code runs for every received message with `len(data) > 0 && c.mode != WSModeW`;
it rewrites `'\n'` to `'\r'` (`bytes.ReplaceAll`), strips the trailing run
of `'\r'` (`bytes.TrimRight(data, "\r")`), injects the stripped text when
non-empty, and injects a single `['\r']` 50 ms later when
`needsSubmit = len(text) < len(data) || len(text) > 0`. -/

/-- `bytes.TrimRight(data, "\r")`: remove the maximal trailing run of
`'\r'` (byte 13). -/
def trimRightCR (l : List Nat) : List Nat :=
  (l.reverse.dropWhile (fun b => b = 13)).reverse

/-- The ordered sequence of `inject` calls that `connectAndRead` performs
for one inbound frame `data` in mode `mode`. -/
def inboundInjections (mode : WSMode) (data : List Nat) : List (List Nat) :=
  if 0 < data.length ∧ mode ≠ WSMode.W then
    let d := data.map (fun b => if b = 10 then 13 else b)
    let text := trimRightCR d
    let needsSubmit := text.length < d.length ∨ 0 < text.length
    (if 0 < text.length then [text] else []) ++
      (if needsSubmit then [[13]] else [])
  else []

theorem trimRightCR_append (l : List Nat) :
    trimRightCR l ++
        List.replicate (l.length - (trimRightCR l).length) 13 = l := by
  unfold trimRightCR
  set t := l.reverse.takeWhile (fun b => decide (b = 13)) with ht
  set d := l.reverse.dropWhile (fun b => decide (b = 13)) with hd
  have h1 : t ++ d = l.reverse := List.takeWhile_append_dropWhile _ _
  have h2 : l = d.reverse ++ t.reverse := by
    conv_lhs => rw [← l.reverse_reverse, ← h1]
    rw [List.reverse_append]
  have hmem : ∀ b ∈ t, b = 13 := by
    intro b hb
    have := List.mem_takeWhile_imp hb
    simpa using this
  have h3 : t.reverse = List.replicate t.length 13 := by
    rw [List.eq_replicate_of_mem hmem]
    simp [List.reverse_replicate]
  have hlen : l.length - d.reverse.length = t.length := by
    have h4 := congrArg List.length h1
    simp only [List.length_append, List.length_reverse] at h4 ⊢
    omega
  rw [hlen, ← h3, ← h2]

theorem trimRightCR_getLast_ne (l : List Nat) :
    (trimRightCR l).getLast? ≠ some 13 := by
  unfold trimRightCR
  intro hcon
  rw [List.getLast?_reverse] at hcon
  cases hhead : (l.reverse.dropWhile (fun b => b = 13)) with
  | nil => simp [hhead] at hcon
  | cons a rest =>
    rw [hhead] at hcon
    simp only [List.head?_cons, Option.some.injEq] at hcon
    have := List.head_dropWhile_not (p := fun b => decide (b = 13)) (l := l.reverse)
    rw [hhead] at this
    simp at this
    exact this (by simpa using hcon)

/-! ## Line tailing (`bridge.go`, `stream.go`)

File contents are modelled as `List Char`.  `bufio.Reader.ReadString('\n')`
hands the loop body one newline-terminated line at a time and, at EOF, the
unterminated remainder, which the loop keeps in `partial` and prepends to
the next line; so the emissions are a function of the byte sequence alone,
processed here one character at a time with the partial buffer made
explicit. -/

/-- `trimNewline` (`stream.go:215-220`): repeatedly remove a trailing
`'\n'` or `'\r'`. -/
def trimNewline (s : List Char) : List Char :=
  (s.reverse.dropWhile (fun c => c = '\n' ∨ c = '\r')).reverse

/-- Strip only the maximal trailing run of `'\r'` (used to characterise
`trimNewline` on a line whose `'\n'` terminator was already removed). -/
def stripTrailCR (s : List Char) : List Char :=
  (s.reverse.dropWhile (fun c => c = '\r')).reverse

/-- The text-frame wrapper of `tailBridge` (`bridge.go:53,80`):
`fmt.Sprintf("{\"type\":\"transcript\",\"data\":%s}", fullLine)`. -/
def mkFrame (l : List Char) : List Char :=
  "\x7b\"type\":\"transcript\",\"data\":".data ++ l ++ ['\x7d']

/-- The main loop of `tailBridge` (`bridge.go:74-95`) with the `partial`
buffer explicit: for each complete line (bytes up to and including `'\n'`),
emit `mkFrame (trimNewline (partial ++ line))` unless the trimmed line is
empty; characters not yet followed by `'\n'` stay buffered and produce
nothing. -/
def tailEmit : List Char → List Char → List (List Char)
  | _, [] => []
  | pbuf, c :: rest =>
    if c = '\n' then
      (let full := trimNewline (pbuf ++ ['\n'])
       if full = [] then [] else [mkFrame full]) ++ tailEmit [] rest
    else tailEmit (pbuf ++ [c]) rest

/-- The frames sent by `tailBridge`'s normal loop for the bytes `content`
appended after its start position (it seeks to the end of the bridge file
before reading, `bridge.go:36`). -/
def tailBridgeFrames (content : List Char) : List (List Char) :=
  tailEmit [] content

/-- The newline-terminated lines of a character sequence (each without its
`'\n'`), with trailing unterminated content dropped; `cur` is the buffered
partial carried in. -/
def linesAux : List Char → List Char → List (List Char)
  | _, [] => []
  | cur, c :: rest =>
    if c = '\n' then cur :: linesAux [] rest
    else linesAux (cur ++ [c]) rest

/-- The main loop of `streamToBridge` (`stream.go:83-108`) with the
`partial` buffer explicit: for each complete line, append
`trimNewline (partial ++ line) ++ "\n"` to the bridge file
(`fmt.Fprintln`) unless the trimmed line is empty. -/
def bridgeEmit : List Char → List Char → List (List Char)
  | _, [] => []
  | pbuf, c :: rest =>
    if c = '\n' then
      (let full := trimNewline (pbuf ++ ['\n'])
       if full = [] then [] else [full ++ ['\n']]) ++ bridgeEmit [] rest
    else bridgeEmit (pbuf ++ [c]) rest

/-- `streamToBridge` opens the transcript and reads from the beginning
(`stream.go:69-71`: "Start from beginning — transcript file is fresh for
each session.  No seekToLastLines backfill needed"); there is no seek, so
the bytes it processes are the pre-existing content followed by whatever
is appended later. -/
def streamToBridgeWrites (preExisting appended : List Char) : List (List Char) :=
  bridgeEmit [] (preExisting ++ appended)

/-- `streamToBridge` with the bridge-write oracle explicit: `ok i` tells
whether the `i`-th `fmt.Fprintln` to the bridge file succeeds.  On a
failed write the function logs and returns (`stream.go:91-94`); the
boolean result records whether it exited on a write error. -/
def bridgeEmitErr (ok : Nat → Bool) : Nat → List Char → List Char → List (List Char) × Bool
  | _, _, [] => ([], false)
  | i, pbuf, c :: rest =>
    if c = '\n' then
      let full := trimNewline (pbuf ++ ['\n'])
      if full = [] then bridgeEmitErr ok i [] rest
      else if ok i then
        let r := bridgeEmitErr ok (i + 1) [] rest
        ((full ++ ['\n']) :: r.1, r.2)
      else ([], true)
    else bridgeEmitErr ok i (pbuf ++ [c]) rest

/-! ### Line-tailing lemmas -/

theorem dropWhile_congr_mem {α : Type} (p q : α → Bool) :
    ∀ l : List α, (∀ a ∈ l, p a = q a) → l.dropWhile p = l.dropWhile q := by
  intro l
  induction l with
  | nil => intro _; rfl
  | cons a rest ih =>
    intro h
    have hhead := h a (List.mem_cons_self a rest)
    have htail := ih (fun b hb => h b (List.mem_cons_of_mem a hb))
    by_cases hq : q a = true
    · rw [List.dropWhile_cons, List.dropWhile_cons, hhead, hq, if_pos rfl,
        if_pos rfl, htail]
    · have hq' : q a = false := by simpa using hq
      rw [List.dropWhile_cons, List.dropWhile_cons, hhead, hq']
      simp

theorem dropWhile_crlf_eq_cr {l : List Char} (h : '\n' ∉ l) :
    l.dropWhile (fun c => decide (c = '\n' ∨ c = '\r')) =
      l.dropWhile (fun c => decide (c = '\r')) := by
  apply dropWhile_congr_mem
  intro a ha
  have hne : a ≠ '\n' := fun hcon => h (hcon ▸ ha)
  by_cases hr : a = '\r' <;> simp [hr, hne]

theorem trimNewline_line {pbuf : List Char} (h : '\n' ∉ pbuf) :
    trimNewline (pbuf ++ ['\n']) = stripTrailCR pbuf := by
  unfold trimNewline stripTrailCR
  have h2 : (pbuf ++ ['\n']).reverse = '\n' :: pbuf.reverse := by simp
  rw [h2, List.dropWhile_cons]
  have h1 : '\n' ∉ pbuf.reverse := by simpa using h
  rw [if_pos (show decide ('\n' = '\n' ∨ '\n' = '\r') = true by simp),
    dropWhile_crlf_eq_cr h1]

theorem tailEmit_eq_filterMap :
    ∀ (content pbuf : List Char), '\n' ∉ pbuf →
      tailEmit pbuf content =
        (linesAux pbuf content).filterMap (fun L =>
          if stripTrailCR L = [] then none else some (mkFrame (stripTrailCR L))) := by
  intro content
  induction content with
  | nil => intro pbuf _; rfl
  | cons c rest ih =>
    intro pbuf hp
    by_cases hc : c = '\n'
    · subst hc
      simp only [tailEmit, linesAux, if_true, List.filterMap_cons]
      rw [trimNewline_line hp]
      by_cases hz : stripTrailCR pbuf = []
      · simp [hz, ih [] (by simp)]
      · simp [hz, ih [] (by simp)]
    · simp only [tailEmit, linesAux, hc, if_false]
      exact ih (pbuf ++ [c]) (by
        intro hcon
        rcases List.mem_append.mp hcon with h1 | h1
        · exact hp h1
        · simp at h1; exact hc h1.symm)

theorem bridgeEmit_eq_filterMap :
    ∀ (content pbuf : List Char), '\n' ∉ pbuf →
      bridgeEmit pbuf content =
        (linesAux pbuf content).filterMap (fun L =>
          if stripTrailCR L = [] then none else some (stripTrailCR L ++ ['\n'])) := by
  intro content
  induction content with
  | nil => intro pbuf _; rfl
  | cons c rest ih =>
    intro pbuf hp
    by_cases hc : c = '\n'
    · subst hc
      simp only [bridgeEmit, linesAux, if_true, List.filterMap_cons]
      rw [trimNewline_line hp]
      by_cases hz : stripTrailCR pbuf = []
      · simp [hz, ih [] (by simp)]
      · simp [hz, ih [] (by simp)]
    · simp only [bridgeEmit, linesAux, hc, if_false]
      exact ih (pbuf ++ [c]) (by
        intro hcon
        rcases List.mem_append.mp hcon with h1 | h1
        · exact hp h1
        · simp at h1; exact hc h1.symm)

theorem bridgeEmitErr_all_ok :
    ∀ (content pbuf : List Char) (i : Nat),
      bridgeEmitErr (fun _ => true) i pbuf content = (bridgeEmit pbuf content, false) := by
  intro content
  induction content with
  | nil => intro pbuf i; rfl
  | cons c rest ih =>
    intro pbuf i
    by_cases hc : c = '\n'
    · subst hc
      simp only [bridgeEmitErr, bridgeEmit, if_true]
      by_cases hz : trimNewline (pbuf ++ ['\n']) = []
      · simp [hz, ih [] i]
      · simp [hz, ih [] (i + 1)]
    · simp only [bridgeEmitErr, bridgeEmit, hc, if_false]
      exact ih (pbuf ++ [c]) i

theorem bridgeEmitErr_first_write_fails (ok : Nat → Bool) :
    ∀ (content pbuf : List Char) (i : Nat), ok i = false →
      (bridgeEmitErr ok i pbuf content).1 = [] ∧
        ((bridgeEmitErr ok i pbuf content).2 = true ↔ bridgeEmit pbuf content ≠ []) := by
  intro content
  induction content with
  | nil =>
    intro pbuf i _
    simp [bridgeEmitErr, bridgeEmit]
  | cons c rest ih =>
    intro pbuf i hok
    by_cases hc : c = '\n'
    · subst hc
      simp only [bridgeEmitErr, bridgeEmit, if_true]
      by_cases hz : trimNewline (pbuf ++ ['\n']) = []
      · simpa [hz] using ih [] i hok
      · simp [hz, hok]
    · simp only [bridgeEmitErr, bridgeEmit, hc, if_false]
      exact ih (pbuf ++ [c]) i hok

/-! ## Hook dispatcher (`runHook`, `handleSessionStart`,
`handlePermissionRequest`, `handleNotification`, and the decision
emitters)

The dispatcher is a request/response wrapper around HTTP calls; every
external effect (stdin read, JSON decode, marker file, enrollment POST,
`/request` POST) is an explicit argument, and the observable outcome is
the list of decision envelopes written to standard output together with
the process exit code.  `tool_input` is opaque and `notification_type` /
`message` / `title` feed only the fire-and-forget Notification payload,
which emits no envelope, so they are not tracked. -/

/-- The fields of `hookInput` that influence dispatch. -/
structure HookInput where
  hookEventName : String
  toolName : String
  sessionID : String
  transcriptPath : String
  deriving DecidableEq, Repr

/-- Result of reading and decoding standard input (`runHook` lines 53-62):
`io.ReadAll` can fail, and `json.Unmarshal` into the `hookInput` struct
can fail; both failure messages carry the Go error text `e`.
Unmarshalling into the struct and into `map[string]interface{}`
(`handlePermissionRequest` line 161) both succeed exactly on JSON objects
and on the JSON literal `null`:
* `parsed input` — the input was a JSON object; the struct fields are
  `input` and the later map unmarshal yields a non-nil map;
* `nullInput` — the input was the literal `null`; the struct unmarshal
  succeeds leaving every field zero-valued, and the later map unmarshal
  succeeds leaving the map nil. -/
inductive StdinData where
  | readError (e : String)
  | parseError (e : String)
  | nullInput
  | parsed (input : HookInput)
  deriving DecidableEq, Repr

/-- The configuration surface `runHook` consults (lines 31-51).
`cfgProject` records whether `~/.greenlight/config` contains a `project`
key; `runHook` reads `device_id` from the config file but never calls
`readConfigValue "project"`, so this field is unused by `runHook`. -/
structure HookEnv where
  wsURLConfigured : Bool
  envDeviceID : String
  cfgDeviceID : String
  envProject : String
  cfgProject : String
  envSessionID : String
  deriving DecidableEq, Repr

/-- A decision envelope written to standard output.  `deny m i` is
`denyAndExit m` when `i = false` and `denyInterruptAndExit m` when
`i = true`; `allow none` is `allowAndExit` and `allow (some u)` is
`allowWithUpdatedInput u`. -/
inductive Decision where
  | deny (message : String) (interrupt : Bool)
  | allow (updatedInput : Option (List (String × String)))
  deriving DecidableEq, Repr

/-- The decoded `/request` response body (`handlePermissionRequest`
lines 197-203): `{behavior, message, updated_input, interrupt, error}`.
`updated_input` is an opaque JSON object, modelled as a key/value list. -/
structure PermServerResp where
  behavior : String
  message : String
  updatedInput : List (String × String)
  interrupt : Bool
  error : String
  deriving DecidableEq, Repr

/-- Outcome of one `postJSON` to `/request`: a network/timeout error, or a
reply with an HTTP status, a body (read only for statuses ≥ 400), and the
result of decoding the body (consulted only for statuses < 400). -/
inductive PostResult where
  | netError
  | reply (status : Nat) (body : String) (decoded : Option PermServerResp)
  deriving DecidableEq, Repr

/-- The external effects a PermissionRequest dispatch can consume, in
order: the enrollment-marker state at entry, the outcome of the
pre-request enrollment POST (if one is made), the first `/request`
response, the outcome of the re-enrollment POST after a 401, and the
retried `/request` response. -/
structure PermOracle where
  marker0 : Bool
  preEnrollOK : Bool
  firstResp : PostResult
  reEnrollOK : Bool
  secondResp : PostResult
  deriving DecidableEq, Repr

/-- What a PermissionRequest dispatch did: how many POSTs hit `/request`,
how many hit `/session/enroll`, and the emitted decision. -/
structure PermOutcome where
  requestPosts : Nat
  enrollPosts : Nat
  decision : Decision
  deriving DecidableEq, Repr

/-- `denyInterruptAndExit` message for an unreachable server
(`handlePermissionRequest` lines 172, 186). -/
def netErrMsg : String :=
  "Failed to reach Greenlight server (timeout or connection error)"

/-- `handlePermissionRequest` lines 191-228: interpret a `/request`
response that was not retried away.  Status ≥ 400 denies with the status
and body; a decode failure denies; a non-empty `error` field wins over
`behavior`; `behavior == "allow"` allows, with `updatedInput` exactly when
`updated_input` is non-empty; anything else denies with the response
message (default `"Permission denied"`) and `interrupt` copied from the
response. -/
def finishRequest (status : Nat) (body : String)
    (decoded : Option PermServerResp) : Decision :=
  if 400 ≤ status then
    .deny ("Greenlight server error (HTTP " ++ toString status ++ "): " ++ body) false
  else
    match decoded with
    | none => .deny "Failed to parse server response" false
    | some r =>
      if r.error ≠ "" then .deny r.error false
      else if r.behavior = "allow" then
        if 0 < r.updatedInput.length then .allow (some r.updatedInput)
        else .allow none
      else
        let msg := if r.message = "" then "Permission denied" else r.message
        if r.interrupt then .deny msg true else .deny msg false

/-- `handlePermissionRequest` (hook source lines 152-229) for an
invocation whose raw input is a JSON object, so that the payload-merge
unmarshal at line 161 yields a non-nil map (the literal `null` instead
panics at `payload["device_id"] = deviceID`; that path is modelled in
`runHook`'s `nullInput` branch).  The pre-request
`enrollSessionWithMarker` (guarded by a non-empty relay id and
transcript path) POSTs only when the marker is absent, and its error is
discarded.  The 401 branch runs only when `relayID != ""`; it removes the
marker, so its `enrollSessionWithMarker` always POSTs, and the retry
happens only if that enrollment succeeds. -/
def handlePermissionRequest (relayID transcriptPath : String)
    (o : PermOracle) : PermOutcome :=
  let preEnrolls := if relayID ≠ "" ∧ transcriptPath ≠ "" ∧ ¬o.marker0 then 1 else 0
  match o.firstResp with
  | .netError => ⟨1, preEnrolls, .deny netErrMsg true⟩
  | .reply st body dec =>
    if st = 401 ∧ relayID ≠ "" then
      if ¬o.reEnrollOK then
        ⟨1, preEnrolls + 1, .deny "Greenlight session enrollment was rejected" false⟩
      else
        match o.secondResp with
        | .netError => ⟨2, preEnrolls + 1, .deny netErrMsg true⟩
        | .reply st2 body2 dec2 => ⟨2, preEnrolls + 1, finishRequest st2 body2 dec2⟩
    else ⟨1, preEnrolls, finishRequest st body dec⟩

/-- The observable outcome of one hook invocation: the decision envelopes
written to standard output, in order, and the process exit code. -/
structure HookOutcome where
  envelopes : List Decision
  exitCode : Nat
  deriving DecidableEq, Repr

/-- `runHook` (hook source lines 31-87) plus its handlers, projected onto
standard output and the exit code.  Configuration checks run first
(server URL, then device id with `env > config` fallback, then project
from `GREENLIGHT_PROJECT` only); then stdin is read and parsed; a missing
or empty `hook_event_name` defaults to `PermissionRequest`; the relay id
is `GREENLIGHT_SESSION_ID`, falling back to the input's `session_id`.
`handleSessionStart` and `handleNotification` end in `os.Exit(0)` without
writing an envelope, as does the unknown-event branch.

For the stdin literal `null` the struct unmarshal succeeds with every
field zero-valued, so the event defaults to `PermissionRequest` and
dispatch reaches `handlePermissionRequest`; there the map unmarshal at
line 161 also succeeds but leaves `payload` nil, and
`payload["device_id"] = deviceID` (line 164) panics on the nil map before
any POST — the Go runtime terminates the process with exit status 2 and
no envelope is written. -/
def runHook (env : HookEnv) (stdin : StdinData) (o : PermOracle) : HookOutcome :=
  if ¬env.wsURLConfigured then
    ⟨[.deny "Greenlight server not configured: no relay server URL configured" false], 0⟩
  else
    let deviceID := if env.envDeviceID ≠ "" then env.envDeviceID else env.cfgDeviceID
    if deviceID = "" then
      ⟨[.deny "Greenlight device ID not configured. See https://getgreenlight.github.io/support.html" false], 0⟩
    else if env.envProject = "" then
      ⟨[.deny "Greenlight project not configured. Run: greenlight connect --project PROJECT_NAME" false], 0⟩
    else
      match stdin with
      | .readError e => ⟨[.deny ("Failed to read hook input: " ++ e) false], 0⟩
      | .parseError e => ⟨[.deny ("Failed to parse hook input: " ++ e) false], 0⟩
      | .nullInput => ⟨[], 2⟩
      | .parsed input =>
        let eventName :=
          if input.hookEventName = "" then "PermissionRequest" else input.hookEventName
        let relayID :=
          if env.envSessionID = "" then input.sessionID else env.envSessionID
        if eventName = "SessionStart" then ⟨[], 0⟩
        else if eventName = "PermissionRequest" then
          ⟨[(handlePermissionRequest relayID input.transcriptPath o).decision], 0⟩
        else if eventName = "Notification" then ⟨[], 0⟩
        else ⟨[], 0⟩

/-- `runConnect` (`connect` source lines 48-59): project resolution for
the `connect` command, `flag > env > config`. -/
def connectResolveProject (flagProject envProject cfgProject : String) : String :=
  if flagProject ≠ "" then flagProject
  else if envProject ≠ "" then envProject
  else cfgProject

/-- Modelled from the claim's words (for comparison with the code): "the
bridge tailer emits exactly one text frame per newline-terminated line L
appearing in the file after the tailer's start position, in file order,
where L is the line stripped of its trailing `\r?\n`". -/
def claimedTailFrames (content : List Char) : List (List Char) :=
  (linesAux [] content).map (fun L =>
    mkFrame (if L.getLast? = some '\r' then L.dropLast else L))

/-- The configuration checks of `runHook` lines 31-49 all pass: the server
URL is configured, a device id is available from the environment or the
config file, and `GREENLIGHT_PROJECT` is set. -/
def hookConfigOK (env : HookEnv) : Prop :=
  env.wsURLConfigured = true ∧
    (env.envDeviceID ≠ "" ∨ env.cfgDeviceID ≠ "") ∧
    env.envProject ≠ ""

/-! ## Claim theorems -/

/-- Claim C10: for every call to `SendText` while the client's mode is `R`
(read-only), the call returns immediately without sending any frame and
without modifying the retry queue — the text message is silently
discarded, never enqueued. -/
theorem claim_C10_sendText_mode_R {α : Type} (connected writeOK : Bool)
    (q : List α) (m : α) :
    sendText WSMode.R connected writeOK q m = (q, false) := by
  simp [sendText]

/-- Claim C8: for a `/request` response that decodes on the success path
(`status < 400`): a non-empty `error` field overrides `behavior` and
yields a deny with `error` as the message; `behavior == "allow"` with a
non-empty `updated_input` yields an allow carrying `updatedInput`,
otherwise a plain allow; any other behavior yields a deny whose
`interrupt` flag equals the response's `interrupt` and whose message
defaults to `"Permission denied"` when the response message is empty. -/
theorem claim_C8_decision_interpretation (st : Nat) (body : String)
    (r : PermServerResp) (hst : st < 400) :
    (r.error ≠ "" → finishRequest st body (some r) = .deny r.error false) ∧
    (r.error = "" → r.behavior = "allow" → 0 < r.updatedInput.length →
      finishRequest st body (some r) = .allow (some r.updatedInput)) ∧
    (r.error = "" → r.behavior = "allow" → r.updatedInput.length = 0 →
      finishRequest st body (some r) = .allow none) ∧
    (r.error = "" → r.behavior ≠ "allow" →
      finishRequest st body (some r) =
        .deny (if r.message = "" then "Permission denied" else r.message)
          r.interrupt) := by
  have hlt : ¬(400 ≤ st) := by omega
  refine ⟨?_, ?_, ?_, ?_⟩
  · intro herr
    simp [finishRequest, hlt, herr]
  · intro herr hbeh hupd
    simp [finishRequest, hlt, herr, hbeh, hupd]
  · intro herr hbeh hupd
    simp [finishRequest, hlt, herr, hbeh, hupd]
  · intro herr hbeh
    cases hint : r.interrupt <;>
      simp [finishRequest, hlt, herr, hbeh, hint]

/-- Claim C8 witness: the interpretation at a concrete success response
(`behavior:"deny"`, empty message, `interrupt:true`). -/
theorem claim_C8_witness :
    (200 : Nat) < 400 ∧
      (("" : String) = "" → ("deny" : String) ≠ "allow" →
        finishRequest 200 ""
            (some ⟨"deny", "", [], true, ""⟩) =
          .deny (if ("" : String) = "" then "Permission denied" else "") true) := by
  refine ⟨by norm_num, ?_⟩
  exact (claim_C8_decision_interpretation 200 ""
    ⟨"deny", "", [], true, ""⟩ (by norm_num)).2.2.2

/-- Claim C9 (code bug): with `GREENLIGHT_PROJECT` unset and the config
file containing a `project` key, the hook dispatcher emits a deny
("project not configured") instead of using the config value, while
`connect`'s resolver for the very same inputs returns the config value:
`runHook` reads `device_id` from the config file but never reads
`project`. -/
theorem claim_C9_hook_ignores_config_project :
    (runHook ⟨true, "", "dev-1", "", "my-project", "relay-1"⟩
        (.parsed ⟨"PermissionRequest", "Bash", "s1", "/tmp/t"⟩)
        ⟨false, true, .netError, true, .netError⟩).envelopes =
      [.deny "Greenlight project not configured. Run: greenlight connect --project PROJECT_NAME" false] ∧
    connectResolveProject "" "" "my-project" = "my-project" := by
  constructor <;> rfl

/-- Claim C6 counterexample: a connection that lasted exactly 60 seconds
does not reset the attempt counter — `Run` resets only when
`time.Since(connStart) > 60*time.Second` holds strictly. -/
theorem claim_C6_counterexample :
    runAttemptAfterDisconnect 5 60000000000 = 5 ∧ (5 : Nat) ≠ 0 := by
  constructor
  · rfl
  · omega

/-- Claim C6 (amended): the backoff delay for attempt `n` with jitter seed
`r ∈ [0,1)` satisfies `0.75·min(2^n s, 30 s) ≤ delay ≤ 1.25·min(2^n s, 30 s)`;
the shift operand saturates at 30 and the shifted value stays below
`2^63`, so the shift cannot overflow; and the attempt counter resets to 0
on the next failure exactly when the preceding connection lasted strictly
more than 60 seconds. -/
theorem claim_C6_backoff (n : Nat) (r : ℚ) (h0 : 0 ≤ r) (h1 : r < 1) :
    ((3 : ℚ)/4 * ((min (1000000000 * 2 ^ n) 30000000000 : Nat) : ℚ) ≤
        (backoffDelayNs n r : ℚ) ∧
      (backoffDelayNs n r : ℚ) ≤
        (5 : ℚ)/4 * ((min (1000000000 * 2 ^ n) 30000000000 : Nat) : ℚ)) ∧
    (backoffSatAttempt n ≤ 30 ∧ 1000000000 * 2 ^ backoffSatAttempt n < 2 ^ 63) ∧
    (∀ a d : Nat, 60000000000 < d → runAttemptAfterDisconnect a d = 0) ∧
    (∀ a d : Nat, d ≤ 60000000000 → runAttemptAfterDisconnect a d = a) := by
  refine ⟨?_, backoff_shift_no_overflow n, ?_, ?_⟩
  · have hb := backoffDelayNs_bounds n r h0 h1
    rw [← backoffBaseNs_eq_min]
    exact hb
  · intro a d hd
    simp [runAttemptAfterDisconnect, hd]
  · intro a d hd
    simp [runAttemptAfterDisconnect, Nat.not_lt.mpr hd]

/-- Claim C6 witness: the bounds at attempt 0 with jitter seed 0, plus the
reset behaviour at concrete durations. -/
theorem claim_C6_witness :
    (0 : ℚ) ≤ 0 ∧ (0 : ℚ) < 1 ∧
      ((3 : ℚ)/4 * ((min (1000000000 * 2 ^ 0) 30000000000 : Nat) : ℚ) ≤
          (backoffDelayNs 0 0 : ℚ) ∧
        (backoffDelayNs 0 0 : ℚ) ≤
          (5 : ℚ)/4 * ((min (1000000000 * 2 ^ 0) 30000000000 : Nat) : ℚ)) ∧
      runAttemptAfterDisconnect 7 60000000001 = 0 ∧
      runAttemptAfterDisconnect 7 59000000000 = 7 := by
  refine ⟨le_refl 0, by norm_num, (claim_C6_backoff 0 0 (le_refl 0) (by norm_num)).1,
    (claim_C6_backoff 0 0 (le_refl 0) (by norm_num)).2.2.1 7 60000000001 (by norm_num),
    (claim_C6_backoff 0 0 (le_refl 0) (by norm_num)).2.2.2 7 59000000000 (by norm_num)⟩

/-- Claim C2 counterexample: when unsent frames are re-queued after a
failed drain and the combined queue overflows, the truncation
`textQueue[:textQueueSize]` keeps the oldest 1024 frames and drops the
NEWEST — here the frame `1` that arrived during the drain is dropped while
every copy of the older frame `0` survives. -/
theorem claim_C2_counterexample :
    requeueAfterFailedDrain (List.replicate 1024 (0 : Nat)) [1] =
        List.replicate 1024 0 ∧
      (1 : Nat) ∉ requeueAfterFailedDrain (List.replicate 1024 (0 : Nat)) [1] := by
  have hq : requeueAfterFailedDrain (List.replicate 1024 (0 : Nat)) [1] =
      List.replicate 1024 0 := by
    unfold requeueAfterFailedDrain
    have hlen : textQueueSize <
        (List.replicate 1024 (0 : Nat) ++ [1]).length := by
      rw [List.length_append, List.length_replicate, List.length_singleton]
      unfold textQueueSize
      omega
    rw [if_pos hlen]
    have h1024 : textQueueSize = (List.replicate 1024 (0 : Nat)).length := by
      rw [List.length_replicate]
      rfl
    rw [h1024, List.take_left]
  refine ⟨hq, ?_⟩
  rw [hq, List.mem_replicate]
  omega

/-- Claim C2 (amended): frames enqueued while disconnected are delivered
in FIFO order by a successful drain after a fresh connection, and the
delivered sequence is the suffix of the last 1024 enqueued frames (so for
K > 1024 enqueues the delivered suffix is the last 1024 in FIFO order);
on enqueue overflow the oldest queued frame is dropped; but on re-queue
after a failed drain an overflowing queue is truncated to its first 1024
entries, dropping the newest frames. -/
theorem claim_C2_retry_queue :
    (∀ msgs : List Nat,
      drainSends (fun _ => true) (enqueueAll [] msgs) = lastN textQueueSize msgs) ∧
    (∀ q : List Nat, drainSends (fun _ => true) q = q) ∧
    (∀ (q : List Nat) (m : Nat), q.length = textQueueSize →
      enqueueText q m = q.drop 1 ++ [m]) ∧
    (∀ unsent arrived : List Nat,
      textQueueSize < (unsent ++ arrived).length →
      requeueAfterFailedDrain unsent arrived =
        (unsent ++ arrived).take textQueueSize) := by
  have hdrain : ∀ q : List Nat, drainSends (fun _ => true) q = q := by
    intro q
    unfold drainSends
    rw [drainSendsFrom_all_ok]
  refine ⟨?_, hdrain, ?_, ?_⟩
  · intro msgs
    rw [hdrain, enqueueAll_eq_lastN msgs [] (by simp [textQueueSize])]
    rfl
  · intro q m hq
    unfold enqueueText
    rw [if_pos (le_of_eq hq.symm)]
  · intro unsent arrived hlen
    unfold requeueAfterFailedDrain
    rw [if_pos hlen]

/-- Claim C2 witness: 1025 frames enqueued while disconnected drain as the
last 1024; a full queue drops its oldest on enqueue; an overflowing
re-queue is truncated to the capacity. -/
theorem claim_C2_witness :
    drainSends (fun _ => true) (enqueueAll [] (List.replicate 1025 (3 : Nat))) =
        lastN textQueueSize (List.replicate 1025 3) ∧
      (List.replicate 1024 (5 : Nat)).length = textQueueSize ∧
      enqueueText (List.replicate 1024 (5 : Nat)) 6 =
        (List.replicate 1024 (5 : Nat)).drop 1 ++ [6] ∧
      textQueueSize < (List.replicate 1024 (7 : Nat) ++ [8]).length ∧
      requeueAfterFailedDrain (List.replicate 1024 (7 : Nat)) [8] =
        (List.replicate 1024 (7 : Nat) ++ [8]).take textQueueSize := by
  have hlen5 : (List.replicate 1024 (5 : Nat)).length = textQueueSize := by
    rw [List.length_replicate]
    rfl
  have hlen78 : textQueueSize < (List.replicate 1024 (7 : Nat) ++ [8]).length := by
    rw [List.length_append, List.length_replicate, List.length_singleton]
    unfold textQueueSize
    omega
  exact ⟨claim_C2_retry_queue.1 _, hlen5,
    claim_C2_retry_queue.2.2.1 _ 6 hlen5, hlen78,
    claim_C2_retry_queue.2.2.2 _ [8] hlen78⟩

/-- Claim C3 counterexample: a frame with no trailing newline still
triggers the delayed `'\r'` — for the one-byte frame `"a"` the client
injects the text and then a separate `'\r'`, where the claim predicts
only the text. -/
theorem claim_C3_counterexample :
    inboundInjections WSMode.RW [97] = [[97], [13]] ∧
      inboundInjections WSMode.RW [97] ≠ [[97]] := by
  constructor
  · rfl
  · intro hcon
    rw [show inboundInjections WSMode.RW [97] = [[97], [13]] from rfl] at hcon
    simp at hcon

/-- Claim C3 (amended): in mode `RW` or `R`, every non-empty inbound frame
has each `'\n'` rewritten to `'\r'`; the maximal trailing run of `'\r'`
is stripped; the stripped text is injected first when non-empty; and a
single `'\r'` is always injected as a separate second write — for every
non-empty frame, whether or not the original ended in a newline.  Empty
frames, and mode `W`, inject nothing. -/
theorem claim_C3_inbound_injection :
    (∀ data : List Nat, inboundInjections WSMode.W data = []) ∧
    (∀ mode : WSMode, inboundInjections mode [] = []) ∧
    (∀ (mode : WSMode) (data : List Nat), mode ≠ WSMode.W → data ≠ [] →
      ∃ text : List Nat,
        inboundInjections mode data =
            (if text = [] then [] else [text]) ++ [[13]] ∧
          text ++ List.replicate (data.length - text.length) 13 =
            data.map (fun b => if b = 10 then 13 else b) ∧
          text.getLast? ≠ some 13) := by
  refine ⟨?_, ?_, ?_⟩
  · intro data
    simp [inboundInjections]
  · intro mode
    simp [inboundInjections]
  · intro mode data hm hd
    set d : List Nat := data.map (fun b => if b = 10 then 13 else b) with hdm
    have hdlen : d.length = data.length := by rw [hdm, List.length_map]
    refine ⟨trimRightCR d, ?_, ?_, trimRightCR_getLast_ne d⟩
    · have hpos : 0 < data.length := List.length_pos.mpr hd
      unfold inboundInjections
      rw [if_pos (⟨hpos, hm⟩ : 0 < data.length ∧ mode ≠ WSMode.W)]
      show (if 0 < (trimRightCR d).length then [trimRightCR d] else []) ++
          (if (trimRightCR d).length < d.length ∨ 0 < (trimRightCR d).length
            then [[13]] else []) =
          (if trimRightCR d = [] then [] else [trimRightCR d]) ++ [[13]]
      by_cases hz : trimRightCR d = []
      · have h0 : ¬0 < (trimRightCR d).length := by
          rw [hz]
          simp
        have hlt : (trimRightCR d).length < d.length := by
          rw [hz, hdlen]
          simpa using hpos
        rw [if_neg h0, if_pos (Or.inl hlt), if_pos hz]
      · have h0 : 0 < (trimRightCR d).length := List.length_pos.mpr hz
        rw [if_pos h0, if_pos (Or.inr h0), if_neg hz]
    · rw [← hdlen]
      exact trimRightCR_append d

/-- Claim C3 witness: the injection sequence for the concrete frame
`"hi\n"` in mode `RW`: text `"hi"` followed by the delayed `'\r'`. -/
theorem claim_C3_witness :
    WSMode.RW ≠ WSMode.W ∧ ([104, 105, 10] : List Nat) ≠ [] ∧
      ∃ text : List Nat,
        inboundInjections WSMode.RW [104, 105, 10] =
            (if text = [] then [] else [text]) ++ [[13]] ∧
          text ++ List.replicate (([104, 105, 10] : List Nat).length - text.length) 13 =
            ([104, 105, 10] : List Nat).map (fun b => if b = 10 then 13 else b) ∧
          text.getLast? ≠ some 13 := by
  refine ⟨by decide, by decide, ?_⟩
  exact claim_C3_inbound_injection.2.2 WSMode.RW [104, 105, 10] (by decide) (by decide)

/-- Claim C5 counterexample: an empty newline-terminated line produces no
frame — for file content consisting of a single `'\n'` the tailer emits
nothing, while the claim predicts exactly one frame (with empty data). -/
theorem claim_C5_counterexample :
    tailBridgeFrames ['\n'] = [] ∧
      claimedTailFrames ['\n'] = [mkFrame []] ∧
      tailBridgeFrames ['\n'] ≠ claimedTailFrames ['\n'] := by
  refine ⟨rfl, rfl, ?_⟩
  intro hcon
  rw [show tailBridgeFrames ['\n'] = [] from rfl,
    show claimedTailFrames ['\n'] = [mkFrame []] from rfl] at hcon
  simp at hcon

/-- Claim C5 (amended): for every file content appended after the tailer's
start position, with partial-line content buffered until its newline
arrives, the tailer emits — in file order — one frame
`{"type":"transcript","data":L}` per newline-terminated line whose
content, after stripping ALL trailing carriage returns, is non-empty;
`L` is that stripped content.  Empty lines produce no frame, and the
stripping removes the whole trailing CR run, not just one `\r?\n`. -/
theorem claim_C5_tail_frames (content : List Char) :
    tailBridgeFrames content =
      (linesAux [] content).filterMap (fun L =>
        if stripTrailCR L = [] then none
        else some (mkFrame (stripTrailCR L))) :=
  tailEmit_eq_filterMap content [] (by simp)

/-- Claim C7 counterexample: `streamToBridge` reads the transcript from
the beginning, so a line already present in the file when the streamer
starts IS forwarded to the bridge — refuting "no line already present
when the streamer starts tailing is forwarded". -/
theorem claim_C7_counterexample :
    streamToBridgeWrites ['x', '\n'] [] = [['x', '\n']] ∧
      streamToBridgeWrites ['x', '\n'] [] ≠ [] := by
  refine ⟨rfl, ?_⟩
  intro hcon
  rw [show streamToBridgeWrites ['x', '\n'] [] = [['x', '\n']] from rfl] at hcon
  simp at hcon

/-- Claim C7 (amended): in bridge mode the streamer processes the
transcript from the beginning — pre-existing lines included — and appends
each complete line that is non-empty after stripping trailing CR/LF,
followed by `'\n'`, to the bridge file, in order; with a write oracle, a
run with no failures performs exactly those writes, and a first-write
failure makes it exit with no writes (and it errors exactly when there
was a line to write). -/
theorem claim_C7_stream_to_bridge :
    (∀ pre post : List Char,
      streamToBridgeWrites pre post =
        (linesAux [] (pre ++ post)).filterMap (fun L =>
          if stripTrailCR L = [] then none
          else some (stripTrailCR L ++ ['\n']))) ∧
    (∀ content : List Char,
      bridgeEmitErr (fun _ => true) 0 [] content = (bridgeEmit [] content, false)) ∧
    (∀ (ok : Nat → Bool) (content : List Char), ok 0 = false →
      (bridgeEmitErr ok 0 [] content).1 = [] ∧
        ((bridgeEmitErr ok 0 [] content).2 = true ↔
          bridgeEmit [] content ≠ [])) := by
  refine ⟨?_, ?_, ?_⟩
  · intro pre post
    exact bridgeEmit_eq_filterMap (pre ++ post) [] (by simp)
  · intro content
    exact bridgeEmitErr_all_ok content [] 0
  · intro ok content hok
    exact bridgeEmitErr_first_write_fails ok content [] 0 hok

/-- Claim C7 witness: a failing first write on the concrete content
`"a\n"` produces no bridge writes and reports the error exit. -/
theorem claim_C7_witness :
    ((fun _ : Nat => false) 0 = false) ∧
      ((bridgeEmitErr (fun _ => false) 0 [] ['a', '\n']).1 = [] ∧
        ((bridgeEmitErr (fun _ => false) 0 [] ['a', '\n']).2 = true ↔
          bridgeEmit [] ['a', '\n'] ≠ [])) :=
  ⟨rfl, claim_C7_stream_to_bridge.2.2 (fun _ => false) ['a', '\n'] rfl⟩

theorem resolveDevice_ne {a b : String} (h : a ≠ "" ∨ b ≠ "") :
    ¬(if a = "" then b else a) = "" := by
  by_cases ha : a = ""
  · rcases h with h1 | h1
    · exact absurd ha h1
    · simpa [ha] using h1
  · simp [ha]

theorem resolveDevice_or {a b : String} (h : ¬(if a = "" then b else a) = "") :
    a ≠ "" ∨ b ≠ "" := by
  by_cases ha : a = ""
  · right
    simpa [ha] using h
  · left
    exact ha

/-- Claim C1 counterexample: a well-configured `SessionStart` invocation
writes NO decision envelope to standard output (it appends env exports,
enrolls, posts activity, spawns the streamer, and exits 0), refuting
"writes exactly one decision-envelope JSON object ... regardless of the
event kind". -/
theorem claim_C1_counterexample :
    (runHook ⟨true, "dev-1", "", "proj", "", "relay-1"⟩
        (.parsed ⟨"SessionStart", "", "s1", "/tmp/t"⟩)
        ⟨false, true, .netError, true, .netError⟩).envelopes = [] ∧
      (runHook ⟨true, "dev-1", "", "proj", "", "relay-1"⟩
          (.parsed ⟨"SessionStart", "", "s1", "/tmp/t"⟩)
          ⟨false, true, .netError, true, .netError⟩).envelopes.length ≠ 1 := by
  have h : (runHook ⟨true, "dev-1", "", "proj", "", "relay-1"⟩
      (.parsed ⟨"SessionStart", "", "s1", "/tmp/t"⟩)
      ⟨false, true, .netError, true, .netError⟩).envelopes = [] := rfl
  refine ⟨h, ?_⟩
  rw [h]
  simp

/-- Claim C1 (amended): every hook invocation writes at most one decision
envelope.  A configuration-check failure, and an unreadable or unparsable
stdin, write exactly one deny envelope and exit 0.  A well-configured
invocation whose stdin parses to a JSON object exits 0 and writes an
envelope iff the event dispatches as `PermissionRequest` (the default for
a missing event name) — `SessionStart`, `Notification` and unknown events
write none.  But a well-configured invocation whose stdin is the JSON
literal `null` (accepted by both unmarshals) writes NO envelope and the
process dies with the Go panic exit status 2, from the nil-map assignment
`payload["device_id"] = deviceID` in `handlePermissionRequest`. -/
theorem claim_C1_envelope_discipline (env : HookEnv) (stdin : StdinData)
    (o : PermOracle) :
    (runHook env stdin o).envelopes.length ≤ 1 ∧
    (¬hookConfigOK env →
      (runHook env stdin o).envelopes.length = 1 ∧
        (runHook env stdin o).exitCode = 0) ∧
    (∀ e, stdin = .readError e ∨ stdin = .parseError e →
      (runHook env stdin o).envelopes.length = 1 ∧
        (runHook env stdin o).exitCode = 0) ∧
    (stdin = .nullInput → hookConfigOK env →
      (runHook env stdin o).envelopes = [] ∧
        (runHook env stdin o).exitCode = 2) ∧
    (∀ input, stdin = .parsed input → hookConfigOK env →
      (runHook env stdin o).exitCode = 0 ∧
      ((runHook env stdin o).envelopes = [] ↔
        (if input.hookEventName = "" then "PermissionRequest"
          else input.hookEventName) ≠ "PermissionRequest")) := by
  rcases stdin with e | e | _ | input
  · refine ⟨?_, ?_, ?_, ?_, ?_⟩
    · simp only [runHook]
      repeat' split
      all_goals simp
    · intro _
      simp only [runHook]
      repeat' split
      all_goals exact ⟨rfl, rfl⟩
    · intro e' _
      simp only [runHook]
      repeat' split
      all_goals exact ⟨rfl, rfl⟩
    · intro h
      cases h
    · intro input hin
      cases hin
  · refine ⟨?_, ?_, ?_, ?_, ?_⟩
    · simp only [runHook]
      repeat' split
      all_goals simp
    · intro _
      simp only [runHook]
      repeat' split
      all_goals exact ⟨rfl, rfl⟩
    · intro e' _
      simp only [runHook]
      repeat' split
      all_goals exact ⟨rfl, rfl⟩
    · intro h
      cases h
    · intro input hin
      cases hin
  · refine ⟨?_, ?_, ?_, ?_, ?_⟩
    · simp only [runHook]
      repeat' split
      all_goals simp
    · intro hnok
      by_cases hws : env.wsURLConfigured = true
      · by_cases hdev : (if env.envDeviceID = "" then env.cfgDeviceID
            else env.envDeviceID) = ""
        · constructor <;> simp [runHook, hws, hdev]
        · by_cases hproj : env.envProject = ""
          · constructor <;> simp [runHook, hws, hdev, hproj]
          · exact absurd ⟨hws, resolveDevice_or hdev, hproj⟩ hnok
      · constructor <;> simp [runHook, hws]
    · intro e' h
      rcases h with h | h <;> cases h
    · intro _ hok
      obtain ⟨hws, hdor, hproj⟩ := hok
      have hdev : ¬(if env.envDeviceID = "" then env.cfgDeviceID
          else env.envDeviceID) = "" := resolveDevice_ne hdor
      constructor <;> simp [runHook, hws, hdev, hproj]
    · intro input hin
      cases hin
  · refine ⟨?_, ?_, ?_, ?_, ?_⟩
    · simp only [runHook]
      repeat' split
      all_goals simp
    · intro hnok
      by_cases hws : env.wsURLConfigured = true
      · by_cases hdev : (if env.envDeviceID = "" then env.cfgDeviceID
            else env.envDeviceID) = ""
        · constructor <;> simp [runHook, hws, hdev]
        · by_cases hproj : env.envProject = ""
          · constructor <;> simp [runHook, hws, hdev, hproj]
          · exact absurd ⟨hws, resolveDevice_or hdev, hproj⟩ hnok
      · constructor <;> simp [runHook, hws]
    · intro e' h
      rcases h with h | h <;> cases h
    · intro h
      cases h
    · intro input' hin hok
      cases hin
      obtain ⟨hws, hdor, hproj⟩ := hok
      have hdev : ¬(if env.envDeviceID = "" then env.cfgDeviceID
          else env.envDeviceID) = "" := resolveDevice_ne hdor
      by_cases hpr : (if input.hookEventName = "" then "PermissionRequest"
          else input.hookEventName) = "PermissionRequest"
      · simp [runHook, hws, hdev, hproj, hpr]
      · by_cases hss : (if input.hookEventName = "" then "PermissionRequest"
            else input.hookEventName) = "SessionStart"
        · simp [runHook, hws, hdev, hproj, hss, hpr]
        · by_cases hnt : (if input.hookEventName = "" then "PermissionRequest"
              else input.hookEventName) = "Notification"
          · simp [runHook, hws, hdev, hproj, hnt, hss, hpr]
          · simp [runHook, hws, hdev, hproj, hnt, hss, hpr]

/-- Claim C1 witness: under a well-configured environment, the stdin
literal `null` yields no envelope and exit status 2, while a concrete
`PermissionRequest` object yields exit 0 and a non-empty envelope list. -/
theorem claim_C1_witness :
    hookConfigOK ⟨true, "dev-1", "", "proj", "", "relay-1"⟩ ∧
      StdinData.nullInput = StdinData.nullInput ∧
      ((runHook ⟨true, "dev-1", "", "proj", "", "relay-1"⟩ .nullInput
          ⟨false, true, .netError, true, .netError⟩).envelopes = [] ∧
        (runHook ⟨true, "dev-1", "", "proj", "", "relay-1"⟩ .nullInput
            ⟨false, true, .netError, true, .netError⟩).exitCode = 2) ∧
      (runHook ⟨true, "dev-1", "", "proj", "", "relay-1"⟩
          (.parsed ⟨"PermissionRequest", "Bash", "s1", ""⟩)
          ⟨false, true, .netError, true, .netError⟩).exitCode = 0 ∧
      ¬((runHook ⟨true, "dev-1", "", "proj", "", "relay-1"⟩
          (.parsed ⟨"PermissionRequest", "Bash", "s1", ""⟩)
          ⟨false, true, .netError, true, .netError⟩).envelopes = []) := by
  have hcfg : hookConfigOK ⟨true, "dev-1", "", "proj", "", "relay-1"⟩ :=
    ⟨rfl, Or.inl (by decide), by decide⟩
  have h5 := (claim_C1_envelope_discipline
      ⟨true, "dev-1", "", "proj", "", "relay-1"⟩
      (.parsed ⟨"PermissionRequest", "Bash", "s1", ""⟩)
      ⟨false, true, .netError, true, .netError⟩).2.2.2.2
      ⟨"PermissionRequest", "Bash", "s1", ""⟩ rfl hcfg
  refine ⟨hcfg, rfl,
    (claim_C1_envelope_discipline
        ⟨true, "dev-1", "", "proj", "", "relay-1"⟩ .nullInput
        ⟨false, true, .netError, true, .netError⟩).2.2.2.1 rfl hcfg,
    h5.1, ?_⟩
  intro hnil
  exact (h5.2.mp hnil) (by decide)

/-- Claim C4 counterexample: the 401 re-enroll-and-retry branch is guarded
by `relayID != ""` — with an empty relay id (no `GREENLIGHT_SESSION_ID`
and no `session_id` in the input) a first 401 produces only ONE POST to
`/request`, no enrollment POST, and a deny carrying the 401 status and
body, instead of the two POSTs plus re-enrollment the claim requires. -/
theorem claim_C4_counterexample :
    (handlePermissionRequest "" "/tmp/t"
        ⟨true, true, .reply 401 "unauthorized" none, true,
          .reply 200 "" (some ⟨"allow", "", [], false, ""⟩)⟩).requestPosts = 1 ∧
      (handlePermissionRequest "" "/tmp/t"
          ⟨true, true, .reply 401 "unauthorized" none, true,
            .reply 200 "" (some ⟨"allow", "", [], false, ""⟩)⟩).enrollPosts = 0 ∧
      (handlePermissionRequest "" "/tmp/t"
          ⟨true, true, .reply 401 "unauthorized" none, true,
            .reply 200 "" (some ⟨"allow", "", [], false, ""⟩)⟩).decision =
        .deny "Greenlight server error (HTTP 401): unauthorized" false := by
  refine ⟨rfl, rfl, ?_⟩
  show finishRequest 401 "unauthorized" none =
    .deny "Greenlight server error (HTTP 401): unauthorized" false
  rfl

/-- Claim C4 (amended): for a PermissionRequest with a NON-EMPTY relay id,
a first 401 deletes the marker, re-enrolls, and — when re-enrollment
succeeds — retries exactly once: the server sees two `/request` POSTs and
exactly one `/session/enroll` POST beyond those of a non-401 run, and the
decision follows the retried response; if re-enrollment fails, a deny
without retry; with an empty relay id, or for any other status ≥ 400,
there is one POST and a deny whose message carries the status and body;
a retried response with status ≥ 400 (including a second 401) also denies
with its status and body. -/
theorem claim_C4_401_retry (relayID transcriptPath : String) (o : PermOracle) :
    (∀ body dec, relayID ≠ "" → o.firstResp = .reply 401 body dec →
      o.reEnrollOK = true →
      (handlePermissionRequest relayID transcriptPath o).requestPosts = 2 ∧
      (handlePermissionRequest relayID transcriptPath o).enrollPosts =
        (handlePermissionRequest relayID transcriptPath
          { o with firstResp := .reply 200 "" (some ⟨"allow", "", [], false, ""⟩)
          }).enrollPosts + 1 ∧
      (∀ st2 body2 dec2, o.secondResp = .reply st2 body2 dec2 →
        (handlePermissionRequest relayID transcriptPath o).decision =
          finishRequest st2 body2 dec2) ∧
      (o.secondResp = .netError →
        (handlePermissionRequest relayID transcriptPath o).decision =
          .deny netErrMsg true)) ∧
    (∀ body dec, relayID ≠ "" → o.firstResp = .reply 401 body dec →
      o.reEnrollOK = false →
      (handlePermissionRequest relayID transcriptPath o).requestPosts = 1 ∧
      (handlePermissionRequest relayID transcriptPath o).decision =
        .deny "Greenlight session enrollment was rejected" false) ∧
    (∀ st body dec, o.firstResp = .reply st body dec → 400 ≤ st →
      ¬(st = 401 ∧ relayID ≠ "") →
      (handlePermissionRequest relayID transcriptPath o).requestPosts = 1 ∧
      (handlePermissionRequest relayID transcriptPath o).decision =
        .deny ("Greenlight server error (HTTP " ++ toString st ++ "): " ++ body)
          false) ∧
    (∀ body dec st2 body2 dec2, relayID ≠ "" → o.firstResp = .reply 401 body dec →
      o.reEnrollOK = true → o.secondResp = .reply st2 body2 dec2 → 400 ≤ st2 →
      (handlePermissionRequest relayID transcriptPath o).decision =
        .deny ("Greenlight server error (HTTP " ++ toString st2 ++ "): " ++ body2)
          false) := by
  refine ⟨?_, ?_, ?_, ?_⟩
  · intro body dec hrel hfirst hre
    unfold handlePermissionRequest
    rw [hfirst]
    simp only []
    rw [if_pos (⟨trivial, hrel⟩ : True ∧ relayID ≠ ""),
      if_neg (not_not_intro hre)]
    cases hsec : o.secondResp with
    | netError =>
      refine ⟨rfl, rfl, ?_, fun _ => rfl⟩
      intro st2 body2 dec2 hcon
      cases hcon
    | reply st2 body2 dec2 =>
      refine ⟨rfl, rfl, ?_, ?_⟩
      · intro st2' body2' dec2' hcon
        cases hcon
        rfl
      · intro hcon
        cases hcon
  · intro body dec hrel hfirst hre
    unfold handlePermissionRequest
    rw [hfirst]
    simp only []
    rw [if_pos (⟨trivial, hrel⟩ : True ∧ relayID ≠ ""),
      if_pos (show ¬(o.reEnrollOK = true) by rw [hre]; exact Bool.false_ne_true)]
    exact ⟨rfl, rfl⟩
  · intro st body dec hfirst hst hcond
    unfold handlePermissionRequest
    rw [hfirst]
    simp only []
    rw [if_neg hcond]
    refine ⟨rfl, ?_⟩
    show finishRequest st body dec = _
    unfold finishRequest
    rw [if_pos hst]
  · intro body dec st2 body2 dec2 hrel hfirst hre hsec hst2
    unfold handlePermissionRequest
    rw [hfirst]
    simp only []
    rw [if_pos (⟨trivial, hrel⟩ : True ∧ relayID ≠ ""),
      if_neg (not_not_intro hre), hsec]
    show finishRequest st2 body2 dec2 = _
    unfold finishRequest
    rw [if_pos hst2]

/-- Claim C4 witness: scenario S4 — first `/request` answers 401, the
retry answers `{"behavior":"allow"}`: two `/request` POSTs, one more
enroll POST than a non-401 run, and an allow decision. -/
theorem claim_C4_witness :
    ("relay-1" : String) ≠ "" ∧
      (handlePermissionRequest "relay-1" "/tmp/t"
          ⟨false, true, .reply 401 "x" none, true,
            .reply 200 "" (some ⟨"allow", "", [], false, ""⟩)⟩).requestPosts = 2 ∧
      (handlePermissionRequest "relay-1" "/tmp/t"
          ⟨false, true, .reply 401 "x" none, true,
            .reply 200 "" (some ⟨"allow", "", [], false, ""⟩)⟩).enrollPosts =
        (handlePermissionRequest "relay-1" "/tmp/t"
            ⟨false, true, .reply 200 "" (some ⟨"allow", "", [], false, ""⟩), true,
              .reply 200 "" (some ⟨"allow", "", [], false, ""⟩)⟩).enrollPosts + 1 ∧
      (handlePermissionRequest "relay-1" "/tmp/t"
          ⟨false, true, .reply 401 "x" none, true,
            .reply 200 "" (some ⟨"allow", "", [], false, ""⟩)⟩).decision =
        Decision.allow none := by
  have hrel : ("relay-1" : String) ≠ "" := by decide
  have h := (claim_C4_401_retry "relay-1" "/tmp/t"
      ⟨false, true, .reply 401 "x" none, true,
        .reply 200 "" (some ⟨"allow", "", [], false, ""⟩)⟩).1 "x" none hrel rfl rfl
  refine ⟨hrel, h.1, h.2.1, ?_⟩
  have hdec := h.2.2.1 200 "" (some ⟨"allow", "", [], false, ""⟩) rfl
  rw [hdec]
  rfl

end Greenlight
